import Mathlib

/-!
VerticalX movie recommendation system: formalisation of the Top-K lookup.

Shallow embedding of the recommendation code of this repository:

* `recommend`        — `recommend` in `src/app.py` (lines 23-34)
* `recommend_movies` — `recommend_movies` in `src/main.py` (lines 232-284)
* `send_movie_recommendations_mail_body`
                     — the mail-body construction in
                       `src/model/send_mail.py` (lines 140-157)
* `loadApp`          — the pickle-loading startup path
                       (`src/app.py` lines 45-48, `src/main.py` lines 767-783)

Similarity scores are floating-point numbers in the source; the lookup only
ever *compares* scores (never does arithmetic on them), so they are embedded
as rationals `ℚ`, which carry the same decidable linear order on the values
the program actually handles.

Python's `sorted(list(enumerate(distances)), reverse=True, key=lambda x: x[1])`
is a stable descending sort by score: on pairs with pairwise-distinct first
components (which `enumerate` always produces) its output is the unique
permutation sorted by the total, antisymmetric order "score descending, then
original index ascending" (`pyRel` below).  We embed it as Mathlib's
`List.insertionSort pyRel`, which produces exactly that sorted permutation;
uniqueness of the sorted permutation under an antisymmetric total order makes
this a faithful embedding of the stable sort.
-/

namespace VerticalX

/-- One row of the movies dataframe: the columns the recommender reads
(`id`/`movie_id` and `original_title`/`title`). -/
structure Item where
  id : Nat
  title : String
deriving DecidableEq, Repr

/-- Python exceptions that the embedded code can raise. -/
inductive PyExc where
  /-- Python `IndexError`: out-of-range `.index[0]`, list/row subscript. -/
  | indexError
  /-- Python `NameError`/`UnboundLocalError`: a local variable read before assignment. -/
  | nameError
deriving DecidableEq, Repr

/-- The order realised by `sorted(..., reverse=True, key=lambda x: x[1])` on
`enumerate` pairs: score descending, ties broken by the original (ascending)
position — the stable-sort tie-break. -/
def pyRel (a b : Nat × ℚ) : Prop :=
  b.2 < a.2 ∨ (a.2 = b.2 ∧ a.1 ≤ b.1)

instance : DecidableRel pyRel := fun a b =>
  inferInstanceAs (Decidable (b.2 < a.2 ∨ (a.2 = b.2 ∧ a.1 ≤ b.1)))

instance : IsTotal (Nat × ℚ) pyRel := ⟨by
  intro a b
  rcases lt_trichotomy a.2 b.2 with h | h | h
  · exact Or.inr (Or.inl h)
  · rcases Nat.le_total a.1 b.1 with h1 | h1
    · exact Or.inl (Or.inr ⟨h, h1⟩)
    · exact Or.inr (Or.inr ⟨h.symm, h1⟩)
  · exact Or.inl (Or.inl h)⟩

instance : IsTrans (Nat × ℚ) pyRel := ⟨by
  intro a b c hab hbc
  rcases hab with h1 | ⟨e1, l1⟩ <;> rcases hbc with h2 | ⟨e2, l2⟩
  · exact Or.inl (h2.trans h1)
  · exact Or.inl (e2 ▸ h1)
  · exact Or.inl (by rw [e1]; exact h2)
  · exact Or.inr ⟨e1.trans e2, l1.trans l2⟩⟩

instance : IsAntisymm (Nat × ℚ) pyRel := ⟨by
  intro a b hab hba
  rcases hab with h1 | ⟨e1, l1⟩
  · rcases hba with h2 | ⟨e2, l2⟩
    · exact absurd (h1.trans h2) (lt_irrefl _)
    · exact absurd h1 (by rw [e2]; exact lt_irrefl _)
  · rcases hba with h2 | ⟨e2, l2⟩
    · exact absurd h2 (by rw [e1]; exact lt_irrefl _)
    · exact Prod.ext (Nat.le_antisymm l1 l2) e1⟩

/-- Embeds `sorted(list(enumerate(distances)), reverse=True, key=lambda x: x[1])`:
the similarity row paired with its positions, sorted by score descending with
the stable (original-position) tie-break. -/
def sortedEnum (distances : List ℚ) : List (Nat × ℚ) :=
  List.insertionSort pyRel distances.enum

/-- Embeds `movies_list = sorted(list(enumerate(distances)), reverse=True,
key=lambda x: x[1])[1:6]`: the Python slice `[1:6]` drops sorted position 0
and keeps sorted positions 1..5. -/
def moviesList (distances : List ℚ) : List (Nat × ℚ) :=
  ((sortedEnum distances).drop 1).take 5

/-- Embeds `movies[movies['original_title'] == movie].index[0]`: the position of the
first catalog row whose title equals `movie` (`none` when the filtered frame
is empty, in which case `.index[0]` raises `IndexError`). -/
def findMovieIndex (movies : List Item) (movie : String) : Option Nat :=
  match movies with
  | [] => none
  | it :: rest =>
      if it.title = movie then some 0
      else (findMovieIndex rest movie).map (· + 1)

/-- The recommendation loop of `app.py`'s `recommend` (lines 28-33): for each
sorted pair, look up the catalog row `movies.iloc[i[0]]` (raising `IndexError`
when the position is out of range), collect its title and the poster fetched
for its id.  `fetch` is `fetch_poster`, the external poster collaborator. -/
def recLoop (movies : List Item) (fetch : Nat → String) :
    List (Nat × ℚ) → Except PyExc (List String × List String)
  | [] => .ok ([], [])
  | p :: rest =>
      match movies[p.1]? with
      | none => .error .indexError
      | some it =>
          match recLoop movies fetch rest with
          | .error e => .error e
          | .ok (ts, ps) => .ok (it.title :: ts, fetch it.id :: ps)

/-- Embedding of `recommend` in `src/app.py` (lines 23-34): resolve the title to its first
catalog index (`IndexError` when absent), read the similarity row
(`IndexError` when the matrix has no such row), sort-and-slice, then collect
titles and fetched posters. -/
def recommend (movies : List Item) (similarity : List (List ℚ))
    (fetch : Nat → String) (movie : String) :
    Except PyExc (List String × List String) :=
  match findMovieIndex movies movie with
  | none => .error .indexError
  | some movie_index =>
      match similarity[movie_index]? with
      | none => .error .indexError
      | some distances => recLoop movies fetch (moviesList distances)

/-- The recommendation loop of `main.py`'s `recommend_movies` (lines 270-281):
same as `recLoop`, but wrapped in `try/except` — on a failed catalog lookup it
shows `st.error("Could not fetch movie poster")` and falls through, returning
the lists accumulated so far.  The first component is the list of `st.error`
messages displayed. -/
def recMoviesLoop (movies : List Item) (fetch : Nat → String) :
    List (Nat × ℚ) → List String × (List String × List String)
  | [] => ([], ([], []))
  | p :: rest =>
      match movies[p.1]? with
      | none => (["Could not fetch movie poster"], ([], []))
      | some it =>
          let r := recMoviesLoop movies fetch rest
          (r.1, (it.title :: r.2.1, fetch it.id :: r.2.2))

/-- Embedding of `recommend_movies` in `src/main.py` (lines 232-284).  The title lookup is
wrapped in `try/except`: when the title is absent, the code displays
`st.error("Could not find movie")` and *continues*, so the next line
`distances = similarity[movie_index]` reads the never-assigned local
`movie_index` and raises `UnboundLocalError` (a `NameError`).  The first
component of the result is the list of `st.error` messages displayed; the
second is the returned value or the uncaught exception. -/
def recommend_movies (movies : List Item) (similarity : List (List ℚ))
    (fetch : Nat → String) (movie : String) :
    List String × Except PyExc (List String × List String) :=
  match findMovieIndex movies movie with
  | none => (["Could not find movie"], .error .nameError)
  | some movie_index =>
      match similarity[movie_index]? with
      | none => ([], .error .indexError)
      | some distances =>
          let r := recMoviesLoop movies fetch (moviesList distances)
          (r.1, .ok r.2)

/-- The mail body built by `send_movie_recommendations_mail` in
`src/model/send_mail.py` (lines 140-157): it concatenates
`list_of_movies[0]` through `list_of_movies[4]` into the fixed template,
raising `IndexError` when any of those subscripts is out of range. -/
def send_movie_recommendations_mail_body (list_of_movies : List String) :
    Except PyExc String :=
  match list_of_movies[0]?, list_of_movies[1]?, list_of_movies[2]?,
      list_of_movies[3]?, list_of_movies[4]? with
  | some m0, some m1, some m2, some m3, some m4 =>
      .ok ("Greetings,"
        ++ ",\n\nWe hope this email finds you well. We appreciate you being amongst the first hundred users to try SilverSpace.\n\nPlease find below the movie recommendations as per your selection. "
        ++ "\n\n1. " ++ m0 ++ "\n2. " ++ m1 ++ "\n3. " ++ m2
        ++ "\n4. " ++ m3 ++ "\n5. " ++ m4
        ++ "\n\nWe have taken great care to ensure the accuracy of the recommendations, and we hope you will have a great time  watching these flicks.\n\nIf you have any questions or need further assistance, please do not hesitate to reach out to us.\n\nBest regards,\nSilverSpace Community Team")
  | _, _, _, _, _ => .error .indexError

/-- Errors the spec's load-time taxonomy names (`DimensionMismatchError`).
The source never raises it; the type records what the spec expects. -/
inductive LoadError where
  | dimensionMismatch
deriving DecidableEq, Repr

/-- The in-memory state after startup: the catalog dataframe and the
similarity matrix. -/
structure AppState where
  movies : List Item
  similarity : List (List ℚ)
deriving DecidableEq, Repr

/-- The startup path of both `src/app.py` (lines 45-48) and `src/main.py`
(lines 767-783): the two pickled payloads are deserialized and stored as-is;
no validation — in particular no dimension check — is performed between
loading and use. -/
def loadApp (movies_dict : List Item) (sim : List (List ℚ)) :
    Except LoadError AppState :=
  .ok ⟨movies_dict, sim⟩

/-- Total accessor for a catalog row (`movies.iloc[n]` once `n` is known to be
in range); out-of-range positions give a dummy row. -/
def itemAt (movies : List Item) (n : Nat) : Item :=
  (movies[n]?).getD ⟨0, ""⟩

/-- Total accessor for a similarity-matrix entry; out-of-range positions give
`0`.  Used only to state hypotheses about in-range entries. -/
def simEntry (similarity : List (List ℚ)) (i j : Nat) : ℚ :=
  (((similarity[i]?).getD [])[j]?).getD 0

instance : DecidableEq (Except PyExc (List String × List String)) := fun a b =>
  match a, b with
  | .ok x, .ok y =>
      match decEq x y with
      | isTrue h => isTrue (h ▸ rfl)
      | isFalse h => isFalse fun hh => h (Except.ok.inj hh)
  | .error x, .error y =>
      match decEq x y with
      | isTrue h => isTrue (h ▸ rfl)
      | isFalse h => isFalse fun hh => h (Except.error.inj hh)
  | .ok _, .error _ => isFalse fun hh => Except.noConfusion hh
  | .error _, .ok _ => isFalse fun hh => Except.noConfusion hh

/-! ### Example inputs

`exCat6`/`exSim6` realise the spec's concrete scenario (catalog A..F with the
given similarity row for "A"); `tieCat`/`tieSim` realise a two-item catalog
whose similarity row for "B" ties the self-similarity with another entry. -/

def exCat6 : List Item :=
  [⟨0, "A"⟩, ⟨1, "B"⟩, ⟨2, "C"⟩, ⟨3, "D"⟩, ⟨4, "E"⟩, ⟨5, "F"⟩]

def exRowA : List ℚ :=
  [1, mkRat 9 10, mkRat 9 10, mkRat 1 2, mkRat 1 5, mkRat 1 10]

def exSim6 : List (List ℚ) := List.replicate 6 exRowA

def tieCat : List Item := [⟨10, "A"⟩, ⟨20, "B"⟩]

def tieSim : List (List ℚ) := [[1, 1], [1, 1]]

/-- A 6×6 similarity matrix whose row 0 is the scenario row `exRowA` and
whose every diagonal entry strictly dominates its row. -/
def exSimStrict : List (List ℚ) :=
  [exRowA,
   [0, 1, 0, 0, 0, 0],
   [0, 0, 1, 0, 0, 0],
   [0, 0, 0, 1, 0, 0],
   [0, 0, 0, 0, 1, 0],
   [0, 0, 0, 0, 0, 1]]

/-! ### Lemmas about the sorted row -/

theorem sortedEnum_perm (d : List ℚ) : List.Perm (sortedEnum d) d.enum :=
  List.perm_insertionSort pyRel d.enum

theorem sortedEnum_sorted (d : List ℚ) : List.Sorted pyRel (sortedEnum d) :=
  List.sorted_insertionSort pyRel d.enum

theorem mem_sortedEnum {d : List ℚ} {p : Nat × ℚ} (h : p ∈ sortedEnum d) :
    p ∈ d.enum :=
  (sortedEnum_perm d).mem_iff.mp h

theorem sortedEnum_nodup (d : List ℚ) : (sortedEnum d).Nodup :=
  (sortedEnum_perm d).nodup_iff.mpr ((List.nodup_enum_map_fst d).of_map _)

theorem mem_enum_getElem {d : List ℚ} {p : Nat × ℚ} (h : p ∈ d.enum) :
    d[p.1]? = some p.2 :=
  List.mem_enum_iff_getElem?.mp h

theorem mem_enum_fst_lt {d : List ℚ} {p : Nat × ℚ} (h : p ∈ d.enum) :
    p.1 < d.length := by
  obtain ⟨hl, -⟩ := List.getElem?_eq_some.mp (mem_enum_getElem h)
  exact hl

theorem moviesList_sublist (d : List ℚ) :
    List.Sublist (moviesList d) (sortedEnum d) :=
  (List.take_sublist _ _).trans (List.drop_sublist _ _)

theorem mem_moviesList {d : List ℚ} {p : Nat × ℚ} (h : p ∈ moviesList d) :
    p ∈ d.enum :=
  mem_sortedEnum ((moviesList_sublist d).subset h)

theorem moviesList_pairwise (d : List ℚ) : (moviesList d).Pairwise pyRel :=
  (sortedEnum_sorted d).sublist (moviesList_sublist d)

/-- The elements of the sorted row have pairwise-distinct original positions. -/
theorem sortedEnum_pairwise_fst_ne (d : List ℚ) :
    (sortedEnum d).Pairwise fun a b => a.1 ≠ b.1 := by
  have hperm : List.Perm ((sortedEnum d).map Prod.fst) (d.enum.map Prod.fst) :=
    (sortedEnum_perm d).map Prod.fst
  have hnd : ((sortedEnum d).map Prod.fst).Nodup :=
    hperm.nodup_iff.mpr (List.nodup_enum_map_fst d)
  exact List.pairwise_map.mp hnd

/-- When the diagonal entry strictly dominates its row, the self-pair sorts
to position 0. -/
theorem sortedEnum_head_of_strict_max {d : List ℚ} {i : Nat} {s : ℚ}
    (hi : d[i]? = some s)
    (hmax : ∀ p ∈ d.enum, p.1 ≠ i → p.2 < s) :
    (sortedEnum d).head? = some (i, s) := by
  have hx0 : (i, s) ∈ d.enum := List.mem_enum_iff_getElem?.mpr hi
  have hx0s : (i, s) ∈ sortedEnum d := (sortedEnum_perm d).mem_iff.mpr hx0
  cases hse : sortedEnum d with
  | nil => rw [hse] at hx0s; exact absurd hx0s (List.not_mem_nil _)
  | cons x xs =>
      rw [hse] at hx0s
      have hxse : x ∈ sortedEnum d := by rw [hse]; exact List.mem_cons_self x xs
      have hxmem : x ∈ d.enum := mem_sortedEnum hxse
      have hsorted : List.Sorted pyRel (x :: xs) := by
        rw [← hse]; exact sortedEnum_sorted d
      have hx : x = (i, s) := by
        by_cases hfst : x.1 = i
        · have h1 : d[i]? = some x.2 := hfst ▸ mem_enum_getElem hxmem
          have h2 : x.2 = s := by rw [h1] at hi; exact Option.some.inj hi
          exact Prod.ext hfst h2
        · have hlt : x.2 < s := hmax x hxmem hfst
          rcases List.mem_cons.mp hx0s with heq | hmem
          · exact absurd (congrArg Prod.fst heq.symm) hfst
          · have hrel : pyRel x (i, s) :=
              List.rel_of_sorted_cons hsorted _ hmem
            rcases hrel with h | ⟨h, -⟩
            · exact absurd (h.trans hlt) (lt_irrefl _)
            · exact absurd hlt (by rw [h]; exact lt_irrefl _)
      rw [hx]
      rfl

/-- Everything after sorted position 0 has an original position different
from the one at position 0. -/
theorem sortedEnum_tail_fst_ne {d : List ℚ} {i : Nat} {s : ℚ}
    (hhead : (sortedEnum d).head? = some (i, s)) :
    ∀ p ∈ (sortedEnum d).drop 1, p.1 ≠ i := by
  cases hse : sortedEnum d with
  | nil => intro p hp; exact absurd hp (List.not_mem_nil _)
  | cons x xs =>
      rw [hse] at hhead
      have hx : x = (i, s) := Option.some.inj hhead
      intro p hp hpi
      simp only [List.drop_one, List.tail_cons] at hp
      have hnd := sortedEnum_nodup d
      rw [hse] at hnd
      obtain ⟨hnotmem, -⟩ := List.nodup_cons.mp hnd
      have hpse : p ∈ sortedEnum d := by
        rw [hse]; exact List.mem_cons_of_mem x hp
      have hxse : x ∈ sortedEnum d := by rw [hse]; exact List.mem_cons_self x xs
      have hpmem : p ∈ d.enum := mem_sortedEnum hpse
      have hxmem : x ∈ d.enum := mem_sortedEnum hxse
      have h1 : d[i]? = some p.2 := hpi ▸ mem_enum_getElem hpmem
      have h2 : d[i]? = some s := by
        have := mem_enum_getElem hxmem
        rw [hx] at this; exact this
      have hp2 : p.2 = s := by rw [h1] at h2; exact Option.some.inj h2
      have : p = x := by rw [hx]; exact Prod.ext hpi hp2
      exact hnotmem (this ▸ hp)

/-! ### Lemmas about the lookup and the collection loop -/

/-- When the title occurs, `movies[...].index[0]` yields some position. -/
theorem findMovieIndex_isSome {movies : List Item} {T : String}
    (h : ∃ it ∈ movies, it.title = T) :
    ∃ i, findMovieIndex movies T = some i := by
  induction movies with
  | nil => obtain ⟨it, hit, -⟩ := h; exact absurd hit (List.not_mem_nil _)
  | cons a rest ih =>
      by_cases hcase : a.title = T
      · exact ⟨0, by simp [findMovieIndex, hcase]⟩
      · obtain ⟨it, hit, htit⟩ := h
        rcases List.mem_cons.mp hit with rfl | hmem
        · exact absurd htit hcase
        · obtain ⟨i, hi⟩ := ih ⟨it, hmem, htit⟩
          exact ⟨i + 1, by simp [findMovieIndex, hcase, hi]⟩

/-- The found position is in range and carries the looked-up title. -/
theorem findMovieIndex_spec {movies : List Item} {T : String} {i : Nat}
    (h : findMovieIndex movies T = some i) :
    i < movies.length ∧ (itemAt movies i).title = T := by
  induction movies generalizing i with
  | nil => exact absurd h (by simp [findMovieIndex])
  | cons a rest ih =>
      by_cases hcase : a.title = T
      · have h0 : i = 0 := by
          simp [findMovieIndex, hcase] at h; exact h.symm
        subst h0
        exact ⟨Nat.succ_pos _, by simpa [itemAt] using hcase⟩
      · simp only [findMovieIndex, hcase, if_false, Option.map_eq_some'] at h
        obtain ⟨j, hj, rfl⟩ := h
        obtain ⟨hlt, htit⟩ := ih hj
        refine ⟨Nat.succ_lt_succ hlt, ?_⟩
        simpa [itemAt] using htit

/-- The collection loop succeeds when every sorted position is in catalog
range, and then produces exactly the titles of the selected rows and the
posters fetched for their ids, in order. -/
theorem recLoop_ok {movies : List Item} {fetch : Nat → String} :
    ∀ {pairs : List (Nat × ℚ)}, (∀ p ∈ pairs, p.1 < movies.length) →
      recLoop movies fetch pairs
        = .ok (pairs.map fun p => (itemAt movies p.1).title,
               pairs.map fun p => fetch (itemAt movies p.1).id) := by
  intro pairs
  induction pairs with
  | nil => intro h; rfl
  | cons p rest ih =>
      intro h
      have hp : p.1 < movies.length := h p (List.mem_cons_self p rest)
      have hget : movies[p.1]? = some movies[p.1] := List.getElem?_eq_getElem hp
      have hitem : itemAt movies p.1 = movies[p.1] := by
        simp [itemAt, hget]
      simp only [recLoop, hget, ih fun q hq => h q (List.mem_cons_of_mem p hq),
        List.map_cons, hitem]

/-- The loop consults the poster collaborator only on catalog ids: two
collaborators agreeing there produce identical loop results. -/
theorem recLoop_congr {movies : List Item} {fetch fetch' : Nat → String}
    (h : ∀ it ∈ movies, fetch it.id = fetch' it.id) :
    ∀ pairs, recLoop movies fetch pairs = recLoop movies fetch' pairs := by
  intro pairs
  induction pairs with
  | nil => rfl
  | cons p rest ih =>
      cases hm : movies[p.1]? with
      | none => simp only [recLoop, hm]
      | some it =>
          simp only [recLoop, hm, ih, h it (List.getElem?_mem hm)]

/-- Evaluating `recommend` on a found title with an in-range similarity row returns
exactly the titles and fetched posters of the sorted-and-sliced pairs. -/
theorem recommend_eq_of_found {movies : List Item}
    {similarity : List (List ℚ)} {fetch : Nat → String} {T : String}
    {i : Nat} {d : List ℚ}
    (hT : findMovieIndex movies T = some i)
    (hrow : similarity[i]? = some d)
    (hlen : d.length ≤ movies.length) :
    recommend movies similarity fetch T
      = .ok ((moviesList d).map fun p => (itemAt movies p.1).title,
             (moviesList d).map fun p => fetch (itemAt movies p.1).id) := by
  simp only [recommend, hT, hrow]
  exact recLoop_ok fun p hp =>
    Nat.lt_of_lt_of_le (mem_enum_fst_lt (mem_moviesList hp)) hlen

theorem itemAt_eq_getElem {movies : List Item} {k : Nat}
    (hk : k < movies.length) : itemAt movies k = movies[k] := by
  simp [itemAt, List.getElem?_eq_getElem hk]

/-- Pairwise-distinct titles at distinct in-range positions differ. -/
theorem itemAt_title_ne {movies : List Item}
    (htitles : movies.Pairwise fun a b => a.title ≠ b.title)
    {i j : Nat} (hi : i < movies.length) (hj : j < movies.length)
    (hij : i ≠ j) :
    (itemAt movies i).title ≠ (itemAt movies j).title := by
  have hpw := List.pairwise_iff_getElem.mp htitles
  rw [itemAt_eq_getElem hi, itemAt_eq_getElem hj]
  rcases Nat.lt_or_ge i j with h | h
  · exact hpw i j hi hj h
  · exact (hpw j i hj hi (Nat.lt_of_le_of_ne h (Ne.symm hij))).symm

theorem sortedEnum_length (d : List ℚ) :
    (sortedEnum d).length = d.length :=
  (sortedEnum_perm d).length_eq.trans List.enum_length

theorem moviesList_length (d : List ℚ) :
    (moviesList d).length = min 5 (d.length - 1) := by
  simp [moviesList, List.length_take, List.length_drop, sortedEnum_length]

/-! ### Claim theorems -/

/-- C2: `recommend` excludes the query item purely by position: it returns
exactly the entries at sorted positions 1..5 (titles and fetched posters of
the pairs in `((sortedEnum d).drop 1).take 5`, i.e. the Python slice
`[1:6]` of the sorted row), and under the assumption that the self-pair
sorts to position 0 none of the returned entries is the query index. -/
theorem recommend_positional_self_exclusion
    (movies : List Item) (similarity : List (List ℚ)) (fetch : Nat → String)
    (T : String) (i : Nat) (d : List ℚ) (s : ℚ)
    (hT : findMovieIndex movies T = some i)
    (hrow : similarity[i]? = some d)
    (hlen : d.length ≤ movies.length)
    (hhead : (sortedEnum d).head? = some (i, s)) :
    recommend movies similarity fetch T
      = .ok ((((sortedEnum d).drop 1).take 5).map
               fun p => (itemAt movies p.1).title,
             (((sortedEnum d).drop 1).take 5).map
               fun p => fetch (itemAt movies p.1).id)
    ∧ ∀ p ∈ ((sortedEnum d).drop 1).take 5, p.1 ≠ i := by
  refine ⟨recommend_eq_of_found hT hrow hlen, ?_⟩
  intro p hp
  exact sortedEnum_tail_fst_ne hhead p (List.mem_of_mem_take hp)

/-- Witness for C2 at the concrete scenario catalog: for "A" (index 0,
self-similarity 1 strictly maximal) the self-pair sorts to position 0,
and the returned entries are sorted positions 1..5, none of them index 0. -/
theorem recommend_positional_self_exclusion_witness :
    recommend exCat6 exSim6 (fun _ => "p") "A"
      = .ok ((((sortedEnum exRowA).drop 1).take 5).map
               fun p => (itemAt exCat6 p.1).title,
             (((sortedEnum exRowA).drop 1).take 5).map
               fun p => (fun _ => "p") (itemAt exCat6 p.1).id)
    ∧ ∀ p ∈ ((sortedEnum exRowA).drop 1).take 5, p.1 ≠ 0 :=
  recommend_positional_self_exclusion exCat6 exSim6 (fun _ => "p") "A" 0 exRowA 1
    (by decide) (by decide) (by decide) (by decide)

/-- C3: the returned items are ordered by non-increasing similarity score
relative to the query: the selected pairs carry exactly the row's scores
(`d[p.1]? = some p.2`) and those scores are pairwise non-increasing along
the output order. -/
theorem recommend_sorted_descending
    (movies : List Item) (similarity : List (List ℚ)) (fetch : Nat → String)
    (T : String) (i : Nat) (d : List ℚ)
    (hT : findMovieIndex movies T = some i)
    (hrow : similarity[i]? = some d)
    (hlen : d.length ≤ movies.length) :
    recommend movies similarity fetch T
      = .ok ((moviesList d).map fun p => (itemAt movies p.1).title,
             (moviesList d).map fun p => fetch (itemAt movies p.1).id)
    ∧ ((moviesList d).Pairwise fun a b => b.2 ≤ a.2)
    ∧ ∀ p ∈ moviesList d, d[p.1]? = some p.2 := by
  refine ⟨recommend_eq_of_found hT hrow hlen, ?_, ?_⟩
  · refine (moviesList_pairwise d).imp ?_
    intro a b h
    rcases h with h | ⟨h, -⟩
    · exact le_of_lt h
    · exact le_of_eq h.symm
  · intro p hp
    exact mem_enum_getElem (mem_moviesList hp)

/-- Witness for C3 at the concrete scenario catalog. -/
theorem recommend_sorted_descending_witness :
    recommend exCat6 exSim6 (fun _ => "p") "A"
      = .ok ((moviesList exRowA).map fun p => (itemAt exCat6 p.1).title,
             (moviesList exRowA).map fun p => (fun _ => "p") (itemAt exCat6 p.1).id)
    ∧ ((moviesList exRowA).Pairwise fun a b => b.2 ≤ a.2)
    ∧ ∀ p ∈ moviesList exRowA, exRowA[p.1]? = some p.2 :=
  recommend_sorted_descending exCat6 exSim6 (fun _ => "p") "A" 0 exRowA
    (by decide) (by decide) (by decide)

/-- C4: ties are broken by catalog index (stability): among the returned
pairs, any two with exactly equal scores appear in ascending catalog-index
order. -/
theorem recommend_stable_ties
    (movies : List Item) (similarity : List (List ℚ)) (fetch : Nat → String)
    (T : String) (i : Nat) (d : List ℚ)
    (hT : findMovieIndex movies T = some i)
    (hrow : similarity[i]? = some d)
    (hlen : d.length ≤ movies.length) :
    recommend movies similarity fetch T
      = .ok ((moviesList d).map fun p => (itemAt movies p.1).title,
             (moviesList d).map fun p => fetch (itemAt movies p.1).id)
    ∧ ((moviesList d).Pairwise fun a b => a.2 = b.2 → a.1 < b.1) := by
  refine ⟨recommend_eq_of_found hT hrow hlen, ?_⟩
  have h1 : (moviesList d).Pairwise pyRel := moviesList_pairwise d
  have h2 : (moviesList d).Pairwise fun a b => a.1 ≠ b.1 :=
    (sortedEnum_pairwise_fst_ne d).sublist (moviesList_sublist d)
  refine (h1.and h2).imp ?_
  intro a b h heq
  obtain ⟨hr, hne⟩ := h
  rcases hr with h | ⟨-, hle⟩
  · exact absurd (heq ▸ h) (lt_irrefl _)
  · exact Nat.lt_of_le_of_ne hle hne

/-- Witness for C4 at the concrete scenario catalog (where positions 1 and 2
tie with score 9/10 and appear in index order). -/
theorem recommend_stable_ties_witness :
    recommend exCat6 exSim6 (fun _ => "p") "A"
      = .ok ((moviesList exRowA).map fun p => (itemAt exCat6 p.1).title,
             (moviesList exRowA).map fun p => (fun _ => "p") (itemAt exCat6 p.1).id)
    ∧ ((moviesList exRowA).Pairwise fun a b => a.2 = b.2 → a.1 < b.1) :=
  recommend_stable_ties exCat6 exSim6 (fun _ => "p") "A" 0 exRowA
    (by decide) (by decide) (by decide)

/-- C1 counterexample: in the two-item catalog `tieCat` the similarity row
for "B" is `[1, 1]` — the self-similarity is (non-strictly) maximal but ties
with the entry for "A", so the stable sort puts the pair of "A" (smaller
index) at position 0 and the slice `[1:6]` keeps the self-pair:
`recommend "B"` returns `["B"]`, which contains the query title itself,
although "B" occurs in the catalog. -/
theorem recommend_self_tie_returns_query :
    recommend tieCat tieSim (fun _ => "p") "B" = .ok (["B"], ["p"])
    ∧ "B" ∈ ["B"] ∧ ∃ it ∈ tieCat, it.title = "B" := by decide

/-- C1 (amended): when additionally every diagonal entry of the similarity
matrix is the *strict* maximum of its row and the catalog's titles are
pairwise distinct, `recommend T` succeeds for every title `T` occurring in
the catalog, returns exactly `min 5 (N - 1)` items, and none of them equals
`T`. -/
theorem recommend_length_and_excludes_query
    (movies : List Item) (similarity : List (List ℚ)) (fetch : Nat → String)
    (T : String)
    (hdim : similarity.length = movies.length)
    (hrows : ∀ row ∈ similarity, row.length = movies.length)
    (hdiag : ∀ i, i < movies.length → ∀ j, j < movies.length → j ≠ i →
      simEntry similarity i j < simEntry similarity i i)
    (htitles : movies.Pairwise fun a b => a.title ≠ b.title)
    (hT : ∃ it ∈ movies, it.title = T) :
    ∃ ts ps, recommend movies similarity fetch T = .ok (ts, ps)
      ∧ ts.length = min 5 (movies.length - 1) ∧ T ∉ ts := by
  obtain ⟨i, hfind⟩ := findMovieIndex_isSome hT
  obtain ⟨hilt, hititle⟩ := findMovieIndex_spec hfind
  have hisim : i < similarity.length := by rw [hdim]; exact hilt
  have hrow : similarity[i]? = some similarity[i] := List.getElem?_eq_getElem hisim
  set d := similarity[i] with hd
  have hdlen : d.length = movies.length := hrows d (List.getElem_mem hisim)
  have hid : i < d.length := by rw [hdlen]; exact hilt
  have his : d[i]? = some d[i] := List.getElem?_eq_getElem hid
  have hsimE : ∀ j (hj : j < d.length), simEntry similarity i j = d[j] := by
    intro j hj
    simp [simEntry, hrow, List.getElem?_eq_getElem hj]
  have hmax : ∀ p ∈ d.enum, p.1 ≠ i → p.2 < d[i] := by
    intro p hp hpi
    have hplt : p.1 < d.length := mem_enum_fst_lt hp
    have hpv : d[p.1]? = some p.2 := mem_enum_getElem hp
    have hpv' : p.2 = d[p.1] := by
      rw [List.getElem?_eq_getElem hplt] at hpv
      exact (Option.some.inj hpv).symm
    have := hdiag i hilt p.1 (by rw [← hdlen]; exact hplt) hpi
    rw [hsimE p.1 hplt, hsimE i hid] at this
    rw [hpv']
    exact this
  have hhead : (sortedEnum d).head? = some (i, d[i]) :=
    sortedEnum_head_of_strict_max his hmax
  have htail := sortedEnum_tail_fst_ne hhead
  refine ⟨(moviesList d).map fun p => (itemAt movies p.1).title,
          (moviesList d).map fun p => fetch (itemAt movies p.1).id,
          recommend_eq_of_found hfind hrow (le_of_eq hdlen), ?_, ?_⟩
  · rw [List.length_map, moviesList_length, hdlen]
  · intro hTmem
    obtain ⟨p, hp, hpt⟩ := List.mem_map.mp hTmem
    have hpi : p.1 ≠ i := htail p (List.mem_of_mem_take hp)
    have hplt : p.1 < movies.length := by
      rw [← hdlen]; exact mem_enum_fst_lt (mem_moviesList hp)
    have hne := itemAt_title_ne htitles hplt hilt hpi
    rw [hititle, hpt] at hne
    exact hne rfl

/-- Witness for C1 (amended) at the concrete scenario catalog, whose
similarity matrix has strictly dominant diagonals in the row that is read:
`exSimStrict` is `exSim6` with the other rows replaced by strictly
diagonally dominant rows. -/
theorem recommend_length_and_excludes_query_witness :
    (∃ ts ps, recommend exCat6 exSimStrict (fun _ => "p") "A" = .ok (ts, ps)
      ∧ ts.length = min 5 (exCat6.length - 1) ∧ "A" ∉ ts) :=
  recommend_length_and_excludes_query exCat6 exSimStrict (fun _ => "p") "A"
    (by decide) (by decide) (by decide) (by decide) (by decide)

/-- C5 evaluation: `recommend_movies` on a title absent from the catalog
displays the `st.error` message "Could not find movie" (a side effect) and
then fails with `UnboundLocalError`/`NameError` — not with a synchronously
returned `NotFoundError` and not effect-free. -/
theorem recommend_movies_absent_title_effect :
    recommend_movies tieCat tieSim (fun _ => "p") "Z"
      = (["Could not find movie"], .error .nameError) := rfl

/-- C6: the spec's concrete scenario: catalog A..F, similarity row for "A"
equal to [1.0, 0.9, 0.9, 0.5, 0.2, 0.1] — `recommend "A"` returns
["B", "C", "D", "E", "F"] in that order, the B/C tie broken by index, with
the posters fetched for ids 1..5 in the same order. -/
theorem recommend_concrete_scenario :
    recommend exCat6 exSim6 (fun n => "poster" ++ toString n) "A"
      = .ok (["B", "C", "D", "E", "F"],
             ["poster1", "poster2", "poster3", "poster4", "poster5"]) := rfl

/-- C7 counterexample: the lookup's result is not a function of the Catalog
and Similarity Matrix alone, and it does not return identifiers only: it
invokes the poster fetcher during the lookup, so two different fetchers give
different outputs on the same catalog and matrix. -/
theorem recommend_depends_on_fetcher :
    recommend exCat6 exSim6 (fun _ => "x") "A"
      ≠ recommend exCat6 exSim6 (fun _ => "y") "A" := by decide

/-- C7 (amended): the lookup is deterministic and pure *given* the poster
fetcher: it consults the fetcher only on catalog ids, so any two fetchers
agreeing on the catalog's ids yield identical results. -/
theorem recommend_pure_given_fetcher
    (movies : List Item) (similarity : List (List ℚ))
    (fetch fetch' : Nat → String) (T : String)
    (h : ∀ it ∈ movies, fetch it.id = fetch' it.id) :
    recommend movies similarity fetch T
      = recommend movies similarity fetch' T := by
  cases hf : findMovieIndex movies T with
  | none => simp only [recommend, hf]
  | some i =>
      cases hs : similarity[i]? with
      | none => simp only [recommend, hf, hs]
      | some d =>
          simp only [recommend, hf, hs]
          exact recLoop_congr h (moviesList d)

/-- Witness for C7 (amended): a fetcher that differs from `fun _ => "p"`
only outside the catalog's ids produces the same recommendation output. -/
theorem recommend_pure_given_fetcher_witness :
    recommend exCat6 exSim6 (fun n => if n < 100 then "p" else "q") "A"
      = recommend exCat6 exSim6 (fun _ => "p") "A" :=
  recommend_pure_given_fetcher exCat6 exSim6
    (fun n => if n < 100 then "p" else "q") (fun _ => "p") "A" (by decide)

/-- C8 counterexample: the load path accepts a similarity matrix whose
dimension (1) differs from the catalog length (2); no
`DimensionMismatchError` — no error at all — is raised at load time. -/
theorem loadApp_accepts_dimension_mismatch :
    loadApp tieCat [[1]] = .ok ⟨tieCat, [[1]]⟩
    ∧ ([[(1 : ℚ)]].length ≠ tieCat.length) :=
  ⟨rfl, by decide⟩

/-- C8 (amended): no dimension check exists at load time — the mismatched
matrix is stored as-is, and the mismatch surfaces only per request, as an
`IndexError` when `recommend` reads a missing similarity row. -/
theorem dimension_mismatch_surfaces_at_request
    (movies : List Item) (similarity : List (List ℚ)) (fetch : Nat → String)
    (T : String) (i : Nat)
    (hT : findMovieIndex movies T = some i)
    (hrow : similarity[i]? = none) :
    loadApp movies similarity = .ok ⟨movies, similarity⟩
    ∧ recommend movies similarity fetch T = .error .indexError := by
  refine ⟨rfl, ?_⟩
  simp only [recommend, hT, hrow]

/-- Witness for C8 (amended): with a 1×2 matrix for the two-item catalog,
the load succeeds and `recommend "B"` fails per request with `IndexError`. -/
theorem dimension_mismatch_surfaces_at_request_witness :
    loadApp tieCat [[1, 1]] = .ok ⟨tieCat, [[1, 1]]⟩
    ∧ recommend tieCat [[1, 1]] (fun _ => "p") "B" = .error .indexError :=
  dimension_mismatch_surfaces_at_request tieCat [[1, 1]] (fun _ => "p") "B" 1
    (by decide) (by decide)

/-- C9: the mail body reads exactly positions 0..4 of `list_of_movies`: the
result only depends on the first five entries, it succeeds exactly when the
list has at least 5 entries, and on any shorter list — such as the outputs
`recommend` produces for catalogs with fewer than 6 items — it fails with
`IndexError`. -/
theorem mail_body_reads_first_five (list_of_movies : List String) :
    send_movie_recommendations_mail_body list_of_movies
        = send_movie_recommendations_mail_body (list_of_movies.take 5)
    ∧ ((∃ body, send_movie_recommendations_mail_body list_of_movies = .ok body)
        ↔ 5 ≤ list_of_movies.length)
    ∧ (list_of_movies.length < 5 →
        send_movie_recommendations_mail_body list_of_movies
          = .error .indexError) := by
  obtain - | ⟨a, - | ⟨b, - | ⟨c, - | ⟨d, - | ⟨e, rest⟩⟩⟩⟩⟩ := list_of_movies <;>
    simp [send_movie_recommendations_mail_body, Nat.succ_le_succ,
      Nat.le_add_left]

/-- C10: for a found title with an in-range similarity row, `recommend`
returns a title list and a poster list of equal length, and at every
position `k` the poster is the one fetched for the id of the catalog item
whose title stands at position `k`. -/
theorem recommend_titles_posters_aligned
    (movies : List Item) (similarity : List (List ℚ)) (fetch : Nat → String)
    (T : String) (i : Nat) (d : List ℚ)
    (hT : findMovieIndex movies T = some i)
    (hrow : similarity[i]? = some d)
    (hlen : d.length ≤ movies.length) :
    ∃ ts ps, recommend movies similarity fetch T = .ok (ts, ps)
      ∧ ts.length = ps.length
      ∧ ∀ k, k < ts.length → ∃ it ∈ movies,
          ts[k]? = some it.title ∧ ps[k]? = some (fetch it.id) := by
  refine ⟨(moviesList d).map fun p => (itemAt movies p.1).title,
          (moviesList d).map fun p => fetch (itemAt movies p.1).id,
          recommend_eq_of_found hT hrow hlen, by simp, ?_⟩
  intro k hk
  rw [List.length_map] at hk
  have hbound : (moviesList d)[k].1 < movies.length :=
    Nat.lt_of_lt_of_le
      (mem_enum_fst_lt (mem_moviesList (List.getElem_mem hk))) hlen
  refine ⟨itemAt movies (moviesList d)[k].1, ?_, ?_, ?_⟩
  · rw [itemAt_eq_getElem hbound]
    exact List.getElem_mem hbound
  · rw [List.getElem?_map, List.getElem?_eq_getElem hk]
    rfl
  · rw [List.getElem?_map, List.getElem?_eq_getElem hk]
    rfl

/-- Witness for C10 at the concrete scenario catalog. -/
theorem recommend_titles_posters_aligned_witness :
    ∃ ts ps,
      recommend exCat6 exSim6 (fun n => "poster" ++ toString n) "A"
        = .ok (ts, ps)
      ∧ ts.length = ps.length
      ∧ ∀ k, k < ts.length → ∃ it ∈ exCat6,
          ts[k]? = some it.title
          ∧ ps[k]? = some ((fun n => "poster" ++ toString n) it.id) :=
  recommend_titles_posters_aligned exCat6 exSim6
    (fun n => "poster" ++ toString n) "A" 0 exRowA
    (by decide) (by decide) (by decide)

end VerticalX
